import Mathlib

set_option maxRecDepth 4000

/-! A shallow embedding of the Eurostat cleaning pipeline of this repository
(`scripts/clean_eurostat.py` and `scripts/analyze_eurostat.py`).

Modelling conventions: Python strings are lists of characters; Python/pandas
floats are exact rationals (decimal literals parse exactly); a missing cell
(pandas `NaN`) is `Option.none`.  The IEEE special values that arise in the
percent-change computation are modelled by an explicit `PyFloat` type. -/

namespace DataInventory

/-- Characters removed by Python's `str.strip()`. -/
def isPySpace (c : Char) : Bool :=
  c = ' ' || c = '\t' || c = '\n' || c = '\r' || c = '\x0b' || c = '\x0c'

/-- Python `str.strip()`. -/
def pyStrip (s : List Char) : List Char :=
  ((s.dropWhile isPySpace).reverse.dropWhile isPySpace).reverse

/-- Python `str.split(d)` for a one-character separator `d`
    (keeps empty fields; always returns at least one piece). -/
def splitOn (d : Char) : List Char → List (List Char)
  | [] => [[]]
  | c :: cs =>
    if c = d then [] :: splitOn d cs
    else
      match splitOn d cs with
      | [] => [[c]]
      | p :: ps => (c :: p) :: ps

/-- In a Python float digit group, each grouping underscore must sit between
    two digits; this checks the tail of a group after its first digit. -/
def digitGroupRest : List Char → Bool
  | [] => true
  | '_' :: rest =>
    match rest with
    | [] => false
    | d :: rest' => d.isDigit && digitGroupRest rest'
  | c :: rest => c.isDigit && digitGroupRest rest

/-- A Python float "digitpart": a digit followed by digits with optional
    grouping underscores. -/
def isDigitGroup : List Char → Bool
  | [] => false
  | c :: rest => c.isDigit && digitGroupRest rest

/-- Numeric value of a digit group (grouping underscores ignored). -/
def digitsVal (s : List Char) : Nat :=
  s.foldl (fun n c => if c.isDigit then 10 * n + (c.toNat - 48) else n) 0

/-- Number of digits in a digit group (underscores excluded). -/
def digitCount (s : List Char) : Nat := s.countP Char.isDigit

/-- The decimal value denoted by an unsigned, letter-free, whitespace-free
    Python float literal, as a scaled pair (numerator, positive scale):
    `d+ | d+.d* | .d+` with grouping underscores.  Exponent and `inf`/`nan`
    spellings contain letters, which the call sites in the scripts have
    already removed, so they cannot occur here. -/
def decimalParts (s : List Char) : Option (ℕ × ℕ) :=
  match splitOn '.' s with
  | [ip] => if isDigitGroup ip then some (digitsVal ip, 1) else none
  | [ip, fp] =>
    if ip.isEmpty then
      if isDigitGroup fp then some (digitsVal fp, 10 ^ digitCount fp) else none
    else if fp.isEmpty then
      if isDigitGroup ip then some (digitsVal ip, 1) else none
    else if isDigitGroup ip && isDigitGroup fp then
      some (digitsVal ip * 10 ^ digitCount fp + digitsVal fp, 10 ^ digitCount fp)
    else none
  | _ => none

/-- Python `float(s)` with an optional leading sign, as an exact rational. -/
def pyFloat (s : List Char) : Option ℚ :=
  match s with
  | '+' :: rest => (decimalParts rest).map fun p => mkRat p.1 p.2
  | '-' :: rest => (decimalParts rest).map fun p => mkRat (-(p.1 : ℤ)) p.2
  | _ => (decimalParts s).map fun p => mkRat p.1 p.2

/-- The exact tokens `clean_value` treats as missing:
    `['', ':', ': m', ': c', ': z']`. -/
def missingTokens : List (List Char) :=
  [[], [':'], [':', ' ', 'm'], [':', ' ', 'c'], [':', ' ', 'z']]

/-- `EurostatCleaner.clean_value`: strip, test the missing tokens, delete
    every character matched by the regex `[a-zA-Z :]+`, and parse what is
    left as a float (`None` on an empty remainder or a parse failure).
    An `Option.none` input models a pandas `NaN` cell. -/
def clean_value (v : Option (List Char)) : Option ℚ :=
  match v with
  | none => none
  | some s =>
    let t := pyStrip s
    if t ∈ missingTokens then none
    else
      let cleaned := t.filter fun c => !(c.isAlpha || c = ' ' || c = ':')
      if cleaned.isEmpty then none else pyFloat cleaned

/-- `EurostatCleaner.extract_flags`: all lowercase letters of the stripped
    cell text, in order (`re.findall(r'[a-z]', ...)`). -/
def extract_flags (v : Option (List Char)) : List Char :=
  match v with
  | none => []
  | some s => (pyStrip s).filter Char.isLower

/-- The four dimensions decomposed from the composite metadata key. -/
structure Meta where
  freq : List Char
  unit : List Char
  tra_mode : List Char
  geo : List Char
  deriving DecidableEq, Repr

/-- One row of `EurostatCleaner.parse_metadata`: split the composite key on
    `,`; with at least 4 parts, keep the first four, whitespace-stripped
    (the fourth part is kept whole, sub-delimiter suffix included);
    otherwise the row is dropped. -/
def parse_metadata_row (s : List Char) : Option Meta :=
  match splitOn ',' s with
  | p0 :: p1 :: p2 :: p3 :: _ =>
    some ⟨pyStrip p0, pyStrip p1, pyStrip p2, pyStrip p3⟩
  | _ => none

/-- `EurostatCleaner.parse_metadata` over the whole metadata column: each
    row index is paired with its parsed key; rows whose key does not parse
    are skipped and the scan continues with the next row. -/
def parse_metadata (rows : List (List Char)) : List (Nat × Meta) :=
  rows.enum.filterMap fun p => (parse_metadata_row p.2).map fun m => (p.1, m)

/-- `parse_eurostat_header` of `analyze_eurostat.py`: requires exactly four
    comma-separated parts (no whitespace stripping) and keeps only what
    precedes the first backslash of the fourth part. -/
def parse_eurostat_header (s : List Char) : Option Meta :=
  match splitOn ',' s with
  | [p0, p1, p2, p3] => some ⟨p0, p1, p2, (splitOn '\\' p3).headI⟩
  | _ => none

/-- A cleaned wide row: parsed dimensions plus one cleaned cell per period
    column (`none` = missing), as produced by `EurostatCleaner.clean_data`. -/
abbrev CleanedRow := Meta × List (Option ℚ)

/-- `EurostatCleaner.clean_data`: parse the metadata column, drop the rows
    whose key does not parse, and clean every year cell of the survivors. -/
def clean_data (raw : List (List Char × List (Option (List Char)))) :
    List CleanedRow :=
  raw.filterMap fun r => (parse_metadata_row r.1).map fun m => (m, r.2.map clean_value)

/-- Python `str.upper()` (ASCII). -/
def pyUpper (s : List Char) : List Char := s.map Char.toUpper

/-- `EurostatCleaner.filter_geo` on the cleaned table: keep the rows whose
    upper-cased `geo` is in the upper-cased allowed list. -/
def filter_geo (countries : List (List Char)) (rows : List CleanedRow) :
    List CleanedRow :=
  rows.filter fun r => decide (pyUpper r.1.geo ∈ countries.map pyUpper)

/-- `EurostatCleaner.filter_mode` on the cleaned table: keep the rows whose
    upper-cased `tra_mode` is in the upper-cased allowed list. -/
def filter_mode (modes : List (List Char)) (rows : List CleanedRow) :
    List CleanedRow :=
  rows.filter fun r => decide (pyUpper r.1.tra_mode ∈ modes.map pyUpper)

/-- One long-format observation row. -/
structure LongObs where
  meta : Meta
  year : ℤ
  value : ℚ
  deriving DecidableEq, Repr

/-- The `melt` step of `EurostatCleaner.to_long_format`: one record per
    (period column, row) pair, column by column as pandas stacks them,
    still carrying the possibly missing value.  The period labels are the
    integer years of the header (`astype(int)`). -/
def melt (years : List ℤ) (rows : List CleanedRow) :
    List (Meta × ℤ × Option ℚ) :=
  years.enum.flatMap fun jy => rows.map fun r => (r.1, jy.2, r.2.getD jy.1 none)

/-- The `dropna` step of `to_long_format`: drop melted records with a
    missing value. -/
def dropnaLong (l : List (Meta × ℤ × Option ℚ)) : List LongObs :=
  l.filterMap fun t => t.2.2.map fun v => ⟨t.1, t.2.1, v⟩

/-- The key comparison of `sort_values(['geo', 'tra_mode', 'year'])`:
    lexicographic on geography, then transport mode, then year, strings
    ordered by code point as pandas orders them. -/
def obsLe (a b : LongObs) : Bool :=
  decide (a.meta.geo < b.meta.geo ∨ (a.meta.geo = b.meta.geo ∧
    (a.meta.tra_mode < b.meta.tra_mode ∨ (a.meta.tra_mode = b.meta.tra_mode ∧
      a.year ≤ b.year))))

/-- `EurostatCleaner.to_long_format`: melt the cleaned table, drop missing
    values and sort by geography, transport mode and year. -/
def to_long_format (years : List ℤ) (rows : List CleanedRow) : List LongObs :=
  (dropnaLong (melt years rows)).mergeSort obsLe

/-- pandas `Series.mean` over the present values of a column
    (`none` models the `NaN` result of an all-missing column). -/
def pyMean (col : List (Option ℚ)) : Option ℚ :=
  let vs := col.filterMap id
  if vs.isEmpty then none else some (vs.sum / vs.length)

/-- pandas `median` of a nonempty list: middle of the sorted values, or the
    average of the two middle values. -/
def pyMedian (vs : List ℚ) : ℚ :=
  let s := vs.mergeSort fun a b => decide (a ≤ b)
  let n := vs.length
  if n % 2 = 1 then s.getD (n / 2) 0
  else (s.getD (n / 2 - 1) 0 + s.getD (n / 2) 0) / 2

/-- The square of pandas `Series.std()` (sample standard deviation,
    `ddof = 1`; `NaN` when fewer than two values).  The code prints the
    square root of this quantity; tracking the square stays inside ℚ and
    determines the printed value, the square root being injective on
    nonnegative reals. -/
def pandasStdSq (vs : List ℚ) : Option ℚ :=
  if vs.length ≤ 1 then none
  else some ((vs.map fun x => (x - vs.sum / vs.length) ^ 2).sum / ((vs.length : ℚ) - 1))

/-- The square of the population standard deviation that the specification
    names (divisor `n`), written from the specification's words for
    comparison with `pandasStdSq`. -/
def popVarianceSpec (vs : List ℚ) : ℚ :=
  (vs.map fun x => (x - vs.sum / vs.length) ^ 2).sum / (vs.length : ℚ)

/-- numpy `min` of a nonempty array (0 is junk for the guarded empty case). -/
def listMin (vs : List ℚ) : ℚ :=
  match vs with
  | [] => 0
  | x :: r => r.foldl min x

/-- numpy `max` of a nonempty array (0 is junk for the guarded empty case). -/
def listMax (vs : List ℚ) : ℚ :=
  match vs with
  | [] => 0
  | x :: r => r.foldl max x

/-- One row of the by-country / by-transport-mode blocks of
    `EurostatCleaner.summary_stats`: data points, mean, median, min and max
    of the group's present cells — and no standard deviation field. -/
structure DimStats where
  count : ℕ
  mean : ℚ
  median : ℚ
  min : ℚ
  max : ℚ
  deriving DecidableEq, Repr

/-- The statistics record of one dimension group (`none` when the group has
    no present values; such groups are omitted). -/
def dimStats (vs : List ℚ) : Option DimStats :=
  if vs.isEmpty then none
  else some ⟨vs.length, vs.sum / vs.length, pyMedian vs, listMin vs, listMax vs⟩

/-- All present values of the rows whose `geo` equals `g`, flattened. -/
def geoValues (rows : List CleanedRow) (g : List Char) : List ℚ :=
  ((rows.filter fun r => decide (r.1.geo = g)).flatMap fun r => r.2).filterMap id

/-- The by-country block of `summary_stats`: one record per distinct `geo`
    (sorted), groups without present values omitted. -/
def summary_stats_geo (rows : List CleanedRow) :
    List (List Char × DimStats) :=
  (((rows.map fun r => r.1.geo).dedup).mergeSort fun a b => decide (a ≤ b)).filterMap
    fun g => (dimStats (geoValues rows g)).map fun st => (g, st)

/-- One row of the year-over-year block of `EurostatCleaner.analyze_trends`:
    count, mean, median and (squared) sample standard deviation of the
    period's present values; empty periods are omitted. -/
structure YearStats where
  count : ℕ
  mean : ℚ
  median : ℚ
  stdSq : Option ℚ
  deriving DecidableEq, Repr

/-- The statistics record of one period column. -/
def yearStats (col : List (Option ℚ)) : Option YearStats :=
  let vs := col.filterMap id
  if vs.isEmpty then none
  else some ⟨vs.length, vs.sum / vs.length, pyMedian vs, pandasStdSq vs⟩

/-- Column `j` of the cleaned table. -/
def colAt (rows : List CleanedRow) (j : ℕ) : List (Option ℚ) :=
  rows.map fun r => r.2.getD j none

/-- The year-over-year block of `analyze_trends`, one record per nonempty
    period column. -/
def analyze_trends_years (years : List ℤ) (rows : List CleanedRow) :
    List YearStats :=
  (List.range years.length).filterMap fun j => yearStats (colAt rows j)

/-- IEEE float results of the percent-change computation: a finite rational,
    an infinity (sign unmodelled: ℚ has no signed zero), or `NaN`. -/
inductive PyFloat where
  | fin : ℚ → PyFloat
  | infinite : PyFloat
  | nan : PyFloat
  deriving DecidableEq, Repr

/-- `(change / first_mean) * 100` under IEEE semantics: division by a zero
    mean yields an infinity (`NaN` when the change is zero too), exactly as
    numpy evaluates it — no exception is raised and no sentinel produced. -/
def pctChange (change first : ℚ) : PyFloat :=
  if first = 0 then (if change = 0 then PyFloat.nan else PyFloat.infinite)
  else PyFloat.fin (change / first * 100)

/-- The overall-trend block of `EurostatCleaner.analyze_trends`: means of
    the first and last period columns; the block is skipped when either mean
    is `NaN`; otherwise the absolute and percent changes are computed. -/
def analyze_trends_overall (years : List ℤ) (rows : List CleanedRow) :
    Option (ℚ × ℚ × ℚ × PyFloat) :=
  match pyMean (colAt rows 0), pyMean (colAt rows (years.length - 1)) with
  | some f, some l => some (f, l, l - f, pctChange (l - f) f)
  | _, _ => none

/-- The observations present in the cleaned table, written from the
    specification's words for claim C5: each period label is paired with the
    row's cell for that period and missing cells are dropped.  The long
    table must consist of exactly these observations. -/
def origObs (years : List ℤ) (rows : List CleanedRow) : List LongObs :=
  rows.flatMap fun r =>
    (years.zip r.2).filterMap fun p => p.2.map fun v => ⟨r.1, p.1, v⟩

/-- The ten decimal digit characters. -/
def decimalDigits : List Char := "0123456789".toList

/-- Body of a plain (non-scientific) decimal numeral: decimal digits and at
    most one point, with at least one digit. -/
def plainBody (u : List Char) : Bool :=
  u.all (fun c => c ∈ '.' :: decimalDigits) && u.any (fun c => c ∈ decimalDigits) &&
    decide (u.countP (fun c => c = '.') ≤ 1)

/-- A plain (non-scientific) decimal numeral with an optional sign: the
    string form Python's `str` gives a float whose magnitude needs no
    exponent.  Claim C8's amendment is restricted to these. -/
def isPlainDecimal (s : List Char) : Bool :=
  match s with
  | '+' :: r => plainBody r
  | '-' :: r => plainBody r
  | _ => plainBody s

/-- The mutable state of an `EurostatCleaner` instance. -/
structure CleanerState where
  df : Option (List (List Char × List (Option (List Char))))
  year_cols : List ℤ
  cleaned_df : Option (List CleanedRow)
  long_df : Option (List LongObs)
  deriving Repr

/-- The Python exceptions raised by the embedded methods. -/
inductive PyErr where
  | valueError
  deriving DecidableEq, Repr

/-- Method `filter_geo`: raises `ValueError` before touching any state when
    `cleaned_df` is `None`; otherwise narrows `cleaned_df` in place. -/
def filter_geo_m (countries : List (List Char)) (st : CleanerState) :
    CleanerState × Except PyErr Unit :=
  match st.cleaned_df with
  | none => (st, Except.error PyErr.valueError)
  | some rows =>
    ({ st with cleaned_df := some (filter_geo countries rows) }, Except.ok ())

/-- Method `filter_mode`: raises `ValueError` before touching any state when
    `cleaned_df` is `None`; otherwise narrows `cleaned_df` in place. -/
def filter_mode_m (modes : List (List Char)) (st : CleanerState) :
    CleanerState × Except PyErr Unit :=
  match st.cleaned_df with
  | none => (st, Except.error PyErr.valueError)
  | some rows =>
    ({ st with cleaned_df := some (filter_mode modes rows) }, Except.ok ())

/-- Method `to_long_format`: raises `ValueError` before touching any state
    when `cleaned_df` is `None`; otherwise stores and returns the long
    table. -/
def to_long_format_m (st : CleanerState) :
    CleanerState × Except PyErr (List LongObs) :=
  match st.cleaned_df with
  | none => (st, Except.error PyErr.valueError)
  | some rows =>
    let l := to_long_format st.year_cols rows
    ({ st with long_df := some l }, Except.ok l)

/-- Method `summary_stats`: raises `ValueError` when `cleaned_df` is `None`;
    otherwise returns the by-country statistics, state untouched. -/
def summary_stats_m (st : CleanerState) :
    CleanerState × Except PyErr (List (List Char × DimStats)) :=
  match st.cleaned_df with
  | none => (st, Except.error PyErr.valueError)
  | some rows => (st, Except.ok (summary_stats_geo rows))

/-- Method `analyze_trends`: raises `ValueError` when `cleaned_df` is
    `None`; otherwise returns the year-over-year and overall trend blocks,
    state untouched. -/
def analyze_trends_m (st : CleanerState) :
    CleanerState × Except PyErr (List YearStats × Option (ℚ × ℚ × ℚ × PyFloat)) :=
  match st.cleaned_df with
  | none => (st, Except.error PyErr.valueError)
  | some rows =>
    (st, Except.ok (analyze_trends_years st.year_cols rows,
      analyze_trends_overall st.year_cols rows))

lemma splitOn_ne_nil (d : Char) (cs : List Char) : splitOn d cs ≠ [] := by
  induction cs with
  | nil => simp [splitOn]
  | cons a cs ih =>
    simp only [splitOn]
    by_cases h : a = d
    · simp [h]
    · simp only [if_neg h]
      cases hs : splitOn d cs <;> simp

lemma splitOn_mem {d : Char} :
    ∀ {cs p : List Char}, p ∈ splitOn d cs → ∀ {c : Char}, c ∈ p → c ∈ cs := by
  intro cs
  induction cs with
  | nil =>
    intro p hp c hc
    simp [splitOn] at hp
    subst hp
    simp at hc
  | cons a cs ih =>
    intro p hp c hc
    simp only [splitOn] at hp
    by_cases h : a = d
    · rw [if_pos h] at hp
      rcases List.mem_cons.mp hp with h1 | h1
      · subst h1; simp at hc
      · exact List.mem_cons_of_mem _ (ih h1 hc)
    · rw [if_neg h] at hp
      cases hs : splitOn d cs with
      | nil => exact absurd hs (splitOn_ne_nil d cs)
      | cons q qs =>
        rw [hs] at hp
        rcases List.mem_cons.mp hp with h1 | h1
        · subst h1
          rcases List.mem_cons.mp hc with h2 | h2
          · subst h2; exact List.mem_cons_self _ _
          · have hq : q ∈ splitOn d cs := by rw [hs]; exact List.mem_cons_self _ _
            exact List.mem_cons_of_mem _ (ih hq h2)
        · have hq : p ∈ splitOn d cs := by rw [hs]; exact List.mem_cons_of_mem _ h1
          exact List.mem_cons_of_mem _ (ih hq hc)

lemma splitOn_of_not_mem {d : Char} {xs : List Char} (h : d ∉ xs) :
    splitOn d xs = [xs] := by
  induction xs with
  | nil => rfl
  | cons a xs ih =>
    have ha : ¬a = d := by rintro rfl; exact h (List.mem_cons_self _ _)
    have h' : d ∉ xs := fun hm => h (List.mem_cons_of_mem _ hm)
    simp only [splitOn, if_neg ha, ih h']

lemma splitOn_append {d : Char} {xs : List Char} (ys : List Char) (h : d ∉ xs) :
    splitOn d (xs ++ d :: ys) = xs :: splitOn d ys := by
  induction xs with
  | nil => simp [splitOn]
  | cons a xs ih =>
    have ha : ¬a = d := by rintro rfl; exact h (List.mem_cons_self _ _)
    have h' : d ∉ xs := fun hm => h (List.mem_cons_of_mem _ hm)
    simp only [List.cons_append, splitOn, if_neg ha, List.append_eq]
    rw [ih h']

lemma mem_pyStrip {c : Char} {s : List Char} (h : c ∈ pyStrip s) : c ∈ s := by
  unfold pyStrip at h
  rw [List.mem_reverse] at h
  have h1 : c ∈ (s.dropWhile isPySpace).reverse :=
    List.Sublist.mem h (List.dropWhile_sublist _)
  rw [List.mem_reverse] at h1
  exact List.Sublist.mem h1 (List.dropWhile_sublist _)

lemma dropWhile_eq_self_of (p : Char → Bool) (l : List Char)
    (h : ∀ c ∈ l, p c = false) : l.dropWhile p = l := by
  cases l with
  | nil => rfl
  | cons a l => simp [List.dropWhile_cons, h a (List.mem_cons_self _ _)]

lemma pyStrip_eq_self {s : List Char} (h : ∀ c ∈ s, isPySpace c = false) :
    pyStrip s = s := by
  unfold pyStrip
  rw [dropWhile_eq_self_of _ _ h,
    dropWhile_eq_self_of _ _ (fun c hc => h c (List.mem_reverse.mp hc)),
    List.reverse_reverse]

lemma isDigitGroup_eq_false {p : List Char} (h : ∀ c ∈ p, c.isDigit = false) :
    isDigitGroup p = false := by
  cases p with
  | nil => rfl
  | cons a r => simp [isDigitGroup, h a (List.mem_cons_self _ _)]

lemma decimalParts_eq_none {s : List Char} (h : ∀ c ∈ s, c.isDigit = false) :
    decimalParts s = none := by
  have hp : ∀ p ∈ splitOn '.' s, ∀ c ∈ p, c.isDigit = false :=
    fun p hps c hc => h c (splitOn_mem hps hc)
  cases hs : splitOn '.' s with
  | nil => unfold decimalParts; rw [hs]
  | cons ip tail =>
    have hip : isDigitGroup ip = false :=
      isDigitGroup_eq_false (hp ip (by rw [hs]; exact List.mem_cons_self _ _))
    cases tail with
    | nil => unfold decimalParts; rw [hs]; simp [hip]
    | cons fp tail2 =>
      have hfp : isDigitGroup fp = false :=
        isDigitGroup_eq_false (hp fp (by
          rw [hs]; exact List.mem_cons_of_mem _ (List.mem_cons_self _ _)))
      cases tail2 with
      | nil => unfold decimalParts; rw [hs]; simp [hip, hfp]
      | cons p3 tail3 => unfold decimalParts; rw [hs]

lemma pyFloat_eq_none {s : List Char} (h : ∀ c ∈ s, c.isDigit = false) :
    pyFloat s = none := by
  cases s with
  | nil => simp [pyFloat, decimalParts_eq_none h]
  | cons a rest =>
    have hrest : ∀ c ∈ rest, c.isDigit = false :=
      fun c hc => h c (List.mem_cons_of_mem _ hc)
    by_cases h1 : a = '+'
    · subst h1; simp [pyFloat, decimalParts_eq_none hrest]
    · by_cases h2 : a = '-'
      · subst h2; simp [pyFloat, decimalParts_eq_none hrest]
      · rw [pyFloat.eq_def]
        split
        · simp_all
        · simp_all
        · simp [decimalParts_eq_none h]

/-- C1 counterexample: the cell `":5"` contains the unavailability marker
    `:` yet `clean_value` strips the marker together with the flags and
    returns the parsed number `5`, not `None`. -/
theorem c1_counterexample :
    ':' ∈ ":5".toList ∧ clean_value (some ":5".toList) = some 5 := by decide

/-- C1 (amended): a raw cell that contains the unavailability marker `:` and
    no decimal digit is always classified as unavailable: `clean_value`
    returns `None`, never a parsed number.  (A digit next to the marker, as
    in `":5"`, defeats the classification — see the counterexample.) -/
theorem c1_amended_colon_without_digit_unavailable (s : List Char)
    (_hc : ':' ∈ s) (hd : ∀ c ∈ s, c.isDigit = false) :
    clean_value (some s) = none := by
  have hmain : ∀ cl : List Char, (∀ c ∈ cl, c.isDigit = false) →
      (if cl.isEmpty = true then none else pyFloat cl) = none := by
    intro cl hcl
    by_cases he : cl.isEmpty = true
    · rw [if_pos he]
    · rw [if_neg he]; exact pyFloat_eq_none hcl
  unfold clean_value
  by_cases ht : pyStrip s ∈ missingTokens
  · simp [ht]
  · simp only [if_neg ht]
    exact hmain _ (fun c hcm => hd c (mem_pyStrip (List.mem_of_mem_filter hcm)))

/-- C1 witness for the amended theorem at the concrete cell `":-"`. -/
theorem c1_amended_witness : clean_value (some ":-".toList) = none :=
  c1_amended_colon_without_digit_unavailable _ (by decide) (by decide)

/-- C2 counterexample: on `"A,B,C,GEO\2023"` the decomposition of
    `EurostatCleaner.parse_metadata` keeps the whole fourth field,
    sub-delimited suffix included: the geography comes out as `GEO\2023`,
    not `GEO`. -/
theorem c2_counterexample :
    (parse_metadata_row "A,B,C,GEO\\2023".toList).map Meta.geo =
        some "GEO\\2023".toList ∧
      "GEO\\2023".toList ≠ "GEO".toList := by decide

/-- C2 (amended): for a composite key `a,b,c,g\t` (components free of the
    delimiters), `parse_eurostat_header` of `analyze_eurostat.py` keeps only
    the part of the fourth field before the sub-delimiter, yielding
    `(a, b, c, g)`; `EurostatCleaner.parse_metadata` instead retains the
    whole trimmed fourth field `g\t`. -/
theorem c2_amended_sub_delimiter (a b c g t : List Char)
    (ha : ',' ∉ a) (hb : ',' ∉ b) (hc : ',' ∉ c) (hg : ',' ∉ g) (ht : ',' ∉ t)
    (hgb : '\\' ∉ g) :
    parse_eurostat_header
        (a ++ ',' :: (b ++ ',' :: (c ++ ',' :: (g ++ '\\' :: t)))) =
        some ⟨a, b, c, g⟩ ∧
      parse_metadata_row
        (a ++ ',' :: (b ++ ',' :: (c ++ ',' :: (g ++ '\\' :: t)))) =
        some ⟨pyStrip a, pyStrip b, pyStrip c, pyStrip (g ++ '\\' :: t)⟩ := by
  have hlast : ',' ∉ g ++ '\\' :: t := by
    intro hm
    rcases List.mem_append.mp hm with h1 | h1
    · exact hg h1
    · rcases List.mem_cons.mp h1 with h2 | h2
      · exact absurd h2.symm (by decide)
      · exact ht h2
  have hsplit : splitOn ','
      (a ++ ',' :: (b ++ ',' :: (c ++ ',' :: (g ++ '\\' :: t)))) =
      [a, b, c, g ++ '\\' :: t] := by
    rw [splitOn_append _ ha, splitOn_append _ hb, splitOn_append _ hc,
      splitOn_of_not_mem hlast]
  constructor
  · unfold parse_eurostat_header
    simp only [hsplit]
    rw [splitOn_append t hgb]
    rfl
  · unfold parse_metadata_row
    simp only [hsplit]

/-- C2 witness for the amended theorem at the key `"A,B,C,GEO\2023"`. -/
theorem c2_amended_witness :
    parse_eurostat_header ("A".toList ++ ',' :: ("B".toList ++ ',' ::
        ("C".toList ++ ',' :: ("GEO".toList ++ '\\' :: "2023".toList)))) =
        some ⟨"A".toList, "B".toList, "C".toList, "GEO".toList⟩ ∧
      parse_metadata_row ("A".toList ++ ',' :: ("B".toList ++ ',' ::
        ("C".toList ++ ',' :: ("GEO".toList ++ '\\' :: "2023".toList)))) =
        some ⟨pyStrip "A".toList, pyStrip "B".toList, pyStrip "C".toList,
          pyStrip ("GEO".toList ++ '\\' :: "2023".toList)⟩ :=
  c2_amended_sub_delimiter _ _ _ _ _ (by decide) (by decide) (by decide)
    (by decide) (by decide) (by decide)

lemma enumFrom_filterMap_snd (f : List Char → Option Meta) (n : ℕ)
    (rows : List (List Char)) :
    ((List.enumFrom n rows).filterMap fun p => (f p.2).map fun m => (p.1, m)).map
        Prod.snd = rows.filterMap f := by
  induction rows generalizing n with
  | nil => rfl
  | cons r rs ih =>
    simp only [List.enumFrom, List.filterMap_cons]
    cases hf : f r with
    | none => simp only [Option.map_none', List.filterMap_cons_none, hf, ih]
    | some m =>
      simp only [Option.map_some', List.filterMap_cons_some, hf, List.map_cons, ih]

/-- C3 counterexample: the key `"A,B,C,D,E"` has five (≥ 4) comma-separated
    parts, yet the decomposition of `analyze_eurostat.py`
    (`parse_eurostat_header`) rejects it: it demands exactly four parts. -/
theorem c3_counterexample :
    4 ≤ (splitOn ',' "A,B,C,D,E".toList).length ∧
      parse_eurostat_header "A,B,C,D,E".toList = none := by decide

/-- C3 (amended): `EurostatCleaner.parse_metadata` accepts every key with at
    least 4 comma-separated parts, taking the first four (stripped); keys
    with fewer parts produce no record — the row is skipped and the batch
    continues, the remaining rows being processed unchanged (the code keeps
    no skip counter; `parse_eurostat_header` demands exactly 4 parts). -/
theorem c3_amended_key_arity :
    (∀ key p0 p1 p2 p3 rest, splitOn ',' key = p0 :: p1 :: p2 :: p3 :: rest →
        parse_metadata_row key =
          some ⟨pyStrip p0, pyStrip p1, pyStrip p2, pyStrip p3⟩) ∧
      (∀ key, (splitOn ',' key).length < 4 → parse_metadata_row key = none) ∧
      (∀ rows, (parse_metadata rows).map Prod.snd =
        rows.filterMap parse_metadata_row) := by
  refine ⟨?_, ?_, ?_⟩
  · intro key p0 p1 p2 p3 rest h
    unfold parse_metadata_row
    rw [h]
  · intro key h
    unfold parse_metadata_row
    cases hs : splitOn ',' key with
    | nil => rfl
    | cons q0 t0 =>
      cases t0 with
      | nil => rfl
      | cons q1 t1 =>
        cases t1 with
        | nil => rfl
        | cons q2 t2 =>
          cases t2 with
          | nil => rfl
          | cons q3 t3 =>
            rw [hs] at h
            simp at h
            omega
  · intro rows
    unfold parse_metadata
    rw [List.enum_eq_enumFrom]
    exact enumFrom_filterMap_snd parse_metadata_row 0 rows

/-- C3 witness for the amended theorem: a five-part key parses to its first
    four stripped fields, and a two-part key is skipped. -/
theorem c3_amended_witness :
    parse_metadata_row "A,B,C,D,E".toList =
        some ⟨pyStrip "A".toList, pyStrip "B".toList, pyStrip "C".toList,
          pyStrip "D".toList⟩ ∧
      parse_metadata_row "A,B".toList = none :=
  ⟨c3_amended_key_arity.1 "A,B,C,D,E".toList "A".toList "B".toList "C".toList
      "D".toList ["E".toList] (by decide),
    c3_amended_key_arity.2.1 "A,B".toList (by decide)⟩

/-- C7: filtering a cleaned table retains a row exactly when its value in the
    filtered dimension, upper-cased, belongs to the upper-cased allowed set
    (for both the geography and the transport-mode filters), and filtering by
    an empty allowed set yields the empty table, not a no-op. -/
theorem c7_filter_case_insensitive (countries modes : List (List Char))
    (rows : List CleanedRow) :
    (∀ r : CleanedRow,
        (r ∈ filter_geo countries rows ↔
          r ∈ rows ∧ pyUpper r.1.geo ∈ countries.map pyUpper) ∧
        (r ∈ filter_mode modes rows ↔
          r ∈ rows ∧ pyUpper r.1.tra_mode ∈ modes.map pyUpper)) ∧
      filter_geo [] rows = [] ∧ filter_mode [] rows = [] := by
  refine ⟨fun r => ⟨?_, ?_⟩, ?_, ?_⟩ <;>
    simp [filter_geo, filter_mode, List.mem_filter]

/-- C10: on an instance on which `clean_data` has not yet run (its
    `cleaned_df` is `None`), each of `filter_geo`, `filter_mode`,
    `to_long_format`, `summary_stats` and `analyze_trends` raises
    `ValueError` and leaves the instance state unchanged. -/
theorem c10_methods_require_clean (st : CleanerState)
    (countries modes : List (List Char)) (h : st.cleaned_df = none) :
    filter_geo_m countries st = (st, Except.error PyErr.valueError) ∧
      filter_mode_m modes st = (st, Except.error PyErr.valueError) ∧
      to_long_format_m st = (st, Except.error PyErr.valueError) ∧
      summary_stats_m st = (st, Except.error PyErr.valueError) ∧
      analyze_trends_m st = (st, Except.error PyErr.valueError) := by
  refine ⟨?_, ?_, ?_, ?_, ?_⟩ <;>
    simp [filter_geo_m, filter_mode_m, to_long_format_m, summary_stats_m,
      analyze_trends_m, h]

/-- C10 witness at a freshly loaded instance with no cleaned table. -/
theorem c10_methods_require_clean_witness :
    filter_geo_m ["BE".toList] ⟨some [], [2020], none, none⟩ =
        (⟨some [], [2020], none, none⟩, Except.error PyErr.valueError) ∧
      filter_mode_m ["IWW".toList] ⟨some [], [2020], none, none⟩ =
        (⟨some [], [2020], none, none⟩, Except.error PyErr.valueError) ∧
      to_long_format_m ⟨some [], [2020], none, none⟩ =
        (⟨some [], [2020], none, none⟩, Except.error PyErr.valueError) ∧
      summary_stats_m ⟨some [], [2020], none, none⟩ =
        (⟨some [], [2020], none, none⟩, Except.error PyErr.valueError) ∧
      analyze_trends_m ⟨some [], [2020], none, none⟩ =
        (⟨some [], [2020], none, none⟩, Except.error PyErr.valueError) :=
  c10_methods_require_clean ⟨some [], [2020], none, none⟩ ["BE".toList]
    ["IWW".toList] rfl

/-- C4 counterexample: on a table whose first-period column is `[0]` and
    last-period column is `[5]`, the first-period mean is exactly `0` and
    `analyze_trends` evaluates `(change / first_mean) * 100` to an IEEE
    infinity — the delta is reported as infinity, not as an explicit
    "undefined" sentinel. -/
theorem c4_counterexample :
    analyze_trends_overall [2020, 2021]
        [(⟨"A".toList, "TKM".toList, "IWW".toList, "BE".toList⟩,
          [some 0, some 5])] =
      some (0, 5, 5, PyFloat.infinite) := by
  norm_num [analyze_trends_overall, colAt, pyMean, pctChange,
    List.filterMap_cons, List.filterMap_nil, List.sum_cons, List.sum_nil]

/-- C4 (amended): whenever the first-period mean is exactly zero (and the
    last-period mean is defined), the percent delta is non-finite: `NaN`
    when the last mean is also zero, an infinity otherwise.  No "undefined"
    sentinel is produced and no exception is raised. -/
theorem c4_amended_zero_baseline_infinite (years : List ℤ)
    (rows : List CleanedRow) (l : ℚ) (hf : pyMean (colAt rows 0) = some 0)
    (hl : pyMean (colAt rows (years.length - 1)) = some l) :
    analyze_trends_overall years rows =
      some (0, l, l, if l = 0 then PyFloat.nan else PyFloat.infinite) := by
  unfold analyze_trends_overall
  rw [hf, hl]
  simp [pctChange, sub_zero]

/-- C4 witness for the amended theorem on the concrete columns `[0]` and
    `[5]`. -/
theorem c4_amended_witness :
    analyze_trends_overall [2020, 2021]
        [(⟨"A".toList, "TKM".toList, "IWW".toList, "BE".toList⟩,
          [some 0, some 5])] =
      some (0, 5, 5, if (5 : ℚ) = 0 then PyFloat.nan else PyFloat.infinite) :=
  c4_amended_zero_baseline_infinite [2020, 2021] _ 5
    (by simp [pyMean, colAt]) (by simp [pyMean, colAt])

/-- C6 counterexample: for the period values `[10, 20]` the code's
    `values.std()` is the sample standard deviation `√50` (`ddof = 1`),
    while the population standard deviation of the claim is `√25`; their
    squares `50` and `25` differ, so the reported statistic is not the
    population standard deviation. -/
theorem c6_counterexample :
    pandasStdSq [10, 20] = some 50 ∧ popVarianceSpec [10, 20] = 25 ∧
      (50 : ℚ) ≠ 25 := by
  refine ⟨?_, ?_, by norm_num⟩ <;>
    norm_num [pandasStdSq, popVarianceSpec, List.sum_cons, List.sum_nil]

/-- C6 (amended): period-grouped aggregation reports the sample standard
    deviation (`ddof = 1`): its square exceeds the population variance by
    the factor `n / (n - 1)`; dimension-grouped aggregation reports exactly
    count, mean, median, min and max — no standard deviation field. -/
theorem c6_amended_sample_std (vs : List ℚ) (h : 2 ≤ vs.length) :
    pandasStdSq vs =
        some ((vs.length : ℚ) / ((vs.length : ℚ) - 1) * popVarianceSpec vs) ∧
      dimStats vs = some ⟨vs.length, vs.sum / vs.length, pyMedian vs,
        listMin vs, listMax vs⟩ := by
  refine ⟨?_, ?_⟩
  · have hl : (2 : ℚ) ≤ (vs.length : ℚ) := by exact_mod_cast h
    have h0 : (vs.length : ℚ) ≠ 0 := by linarith
    have h1 : (vs.length : ℚ) - 1 ≠ 0 := by
      intro hh
      rw [sub_eq_zero] at hh
      linarith [hh.symm.le]
    unfold pandasStdSq popVarianceSpec
    rw [if_neg (by omega : ¬vs.length ≤ 1)]
    congr 1
    field_simp
    ring
  · cases vs with
    | nil => simp at h
    | cons a l => rfl

/-- C6 witness for the amended theorem at the values `[10, 20]`. -/
theorem c6_amended_witness :
    pandasStdSq [10, 20] =
        some ((([10, 20] : List ℚ).length : ℚ) /
          ((([10, 20] : List ℚ).length : ℚ) - 1) * popVarianceSpec [10, 20]) ∧
      dimStats [10, 20] =
        some ⟨([10, 20] : List ℚ).length,
          ([10, 20] : List ℚ).sum / (([10, 20] : List ℚ).length : ℚ),
          pyMedian [10, 20], listMin [10, 20], listMax [10, 20]⟩ :=
  c6_amended_sample_std [10, 20] (by decide)

lemma plainChar_props {c : Char} (h : c ∈ '.' :: decimalDigits) :
    (!(c.isAlpha || c = ' ' || c = ':')) = true ∧ isPySpace c = false ∧
      c.isLower = false := by
  have hd : ('.' :: decimalDigits) =
      ['.', '0', '1', '2', '3', '4', '5', '6', '7', '8', '9'] := by decide
  rw [hd] at h
  fin_cases h <;> refine ⟨by decide, by decide, by decide⟩

lemma plainBody_mem {u : List Char} (h : plainBody u = true) :
    ∀ c ∈ u, c ∈ '.' :: decimalDigits := by
  unfold plainBody at h
  simp only [Bool.and_eq_true, List.all_eq_true, decide_eq_true_eq] at h
  exact fun c hc => h.1.1 c hc

lemma isPlainDecimal_chars {s : List Char} (h : isPlainDecimal s = true) :
    ∀ c ∈ s, c = '+' ∨ c = '-' ∨ c ∈ '.' :: decimalDigits := by
  rcases s with _ | ⟨a, u⟩
  · intro c hc; simp at hc
  · have hbody : (a = '+' ∧ plainBody u = true) ∨
        (a = '-' ∧ plainBody u = true) ∨ plainBody (a :: u) = true := by
      rw [isPlainDecimal.eq_def] at h
      split at h
      next r heq =>
        injection heq with h1 h2
        exact Or.inl ⟨h1, by rw [h2]; exact h⟩
      next r heq =>
        injection heq with h1 h2
        exact Or.inr (Or.inl ⟨h1, by rw [h2]; exact h⟩)
      next => exact Or.inr (Or.inr h)
    intro c hc
    rcases hbody with ⟨rfl, hb⟩ | ⟨rfl, hb⟩ | hb
    · rcases List.mem_cons.mp hc with rfl | hcu
      · exact Or.inl rfl
      · exact Or.inr (Or.inr (plainBody_mem hb c hcu))
    · rcases List.mem_cons.mp hc with rfl | hcu
      · exact Or.inr (Or.inl rfl)
      · exact Or.inr (Or.inr (plainBody_mem hb c hcu))
    · exact Or.inr (Or.inr (plainBody_mem hb c hc))

lemma clean_value_some (s : List Char) :
    clean_value (some s) =
      if pyStrip s ∈ missingTokens then none
      else if ((pyStrip s).filter fun c =>
          !(c.isAlpha || c = ' ' || c = ':')).isEmpty = true then none
      else pyFloat ((pyStrip s).filter fun c =>
        !(c.isAlpha || c = ' ' || c = ':')) := rfl

/-- C8 counterexample: the raw cell `"0.00000001"` cleans to the definite
    value 10⁻⁸, whose string form under Python's `str` is `"1e-08"` (`str`
    renders magnitudes below 10⁻⁴ in scientific notation); re-applying
    `clean_value` to `"1e-08"` strips the letter `e`, leaving `"1-08"`,
    which does not parse: the re-clean returns `None` instead of the value,
    so cleaning is not idempotent on the string forms of its own outputs. -/
theorem c8_counterexample :
    clean_value (some "0.00000001".toList) = some (mkRat 1 100000000) ∧
      clean_value (some "1e-08".toList) = none := by decide

/-- C8 (amended): idempotence holds on plain decimal string forms: if a raw
    cell cleans to a definite value `v` and the string `s` is a plain
    (non-scientific) decimal form of `v`, then re-cleaning `s` returns the
    same value `v` with an empty flag set.  (When `str(v)` needs scientific
    notation — magnitude below 10⁻⁴ or at least 10¹⁶ — the exponent letter
    is stripped and re-cleaning loses the value; see the counterexample.) -/
theorem c8_amended_plain_decimal_idempotent (x : Option (List Char)) (v : ℚ)
    (s : List Char) (_hx : clean_value x = some v)
    (hs : isPlainDecimal s = true) (hv : pyFloat s = some v) :
    clean_value (some s) = some v ∧ extract_flags (some s) = [] := by
  have hchar := isPlainDecimal_chars hs
  have hface : ∀ c ∈ s, (!(c.isAlpha || c = ' ' || c = ':')) = true ∧
      isPySpace c = false ∧ c.isLower = false := by
    intro c hc
    rcases hchar c hc with rfl | rfl | hm
    · exact ⟨by decide, by decide, by decide⟩
    · exact ⟨by decide, by decide, by decide⟩
    · exact plainChar_props hm
  have hstrip : pyStrip s = s := pyStrip_eq_self fun c hc => (hface c hc).2.1
  have hnt : s ∉ missingTokens := by
    intro hmem
    simp only [missingTokens, List.mem_cons, List.not_mem_nil, or_false] at hmem
    rcases hmem with rfl | rfl | rfl | rfl | rfl <;> exact absurd hs (by decide)
  have hfilter : (s.filter fun c => !(c.isAlpha || c = ' ' || c = ':')) = s :=
    List.filter_eq_self.mpr fun c hc => (hface c hc).1
  have hne : s ≠ [] := by rintro rfl; exact absurd hs (by decide)
  constructor
  · rw [clean_value_some, hstrip, if_neg hnt, hfilter,
      if_neg (by simp [List.isEmpty_iff, hne])]
    exact hv
  · show (pyStrip s).filter Char.isLower = []
    rw [hstrip]
    exact List.filter_eq_nil_iff.mpr fun c hc => by simp [(hface c hc).2.2]

/-- C8 witness for the amended theorem: `"12.3 e"` cleans to `12.3`, whose
    plain string form `"12.3"` re-cleans to the same value with no flags. -/
theorem c8_amended_witness :
    clean_value (some "12.3".toList) = some (mkRat 123 10) ∧
      extract_flags (some "12.3".toList) = [] :=
  c8_amended_plain_decimal_idempotent (some "12.3 e".toList) (mkRat 123 10)
    "12.3".toList (by decide) (by decide) (by decide)

lemma obsLe_trans (a b c : LongObs) (h1 : obsLe a b = true)
    (h2 : obsLe b c = true) : obsLe a c = true := by
  simp only [obsLe, decide_eq_true_eq] at *
  rcases h1 with h1 | ⟨e1, h1⟩
  · rcases h2 with h2 | ⟨e2, h2⟩
    · exact Or.inl (lt_trans h1 h2)
    · exact Or.inl (by rw [← e2]; exact h1)
  · rcases h2 with h2 | ⟨e2, h2⟩
    · exact Or.inl (by rw [e1]; exact h2)
    · refine Or.inr ⟨e1.trans e2, ?_⟩
      rcases h1 with h1 | ⟨f1, h1⟩
      · rcases h2 with h2 | ⟨f2, h2⟩
        · exact Or.inl (lt_trans h1 h2)
        · exact Or.inl (by rw [← f2]; exact h1)
      · rcases h2 with h2 | ⟨f2, h2⟩
        · exact Or.inl (by rw [f1]; exact h2)
        · exact Or.inr ⟨f1.trans f2, le_trans h1 h2⟩

lemma obsLe_total (a b : LongObs) : (obsLe a b || obsLe b a) = true := by
  simp only [obsLe, Bool.or_eq_true, decide_eq_true_eq]
  rcases lt_trichotomy a.meta.geo b.meta.geo with h | h | h
  · exact Or.inl (Or.inl h)
  · rcases lt_trichotomy a.meta.tra_mode b.meta.tra_mode with h2 | h2 | h2
    · exact Or.inl (Or.inr ⟨h, Or.inl h2⟩)
    · rcases le_total a.year b.year with h3 | h3
      · exact Or.inl (Or.inr ⟨h, Or.inr ⟨h2, h3⟩⟩)
      · exact Or.inr (Or.inr ⟨h.symm, Or.inr ⟨h2.symm, h3⟩⟩)
    · exact Or.inr (Or.inr ⟨h.symm, Or.inl h2⟩)
  · exact Or.inr (Or.inl h)

/-- C9: the long table produced by `to_long_format` is sorted primarily by
    geography, then by transport mode, then by period, all ascending. -/
theorem c9_long_format_sorted (years : List ℤ) (rows : List CleanedRow) :
    (to_long_format years rows).Pairwise fun a b =>
      a.meta.geo < b.meta.geo ∨ (a.meta.geo = b.meta.geo ∧
        (a.meta.tra_mode < b.meta.tra_mode ∨ (a.meta.tra_mode = b.meta.tra_mode ∧
          a.year ≤ b.year))) := by
  have h := List.sorted_mergeSort obsLe_trans obsLe_total
    (dropnaLong (melt years rows))
  refine List.Pairwise.imp ?_ h
  intro a b hab
  simpa [obsLe, decide_eq_true_eq] using hab

lemma flatMap_cons_perm {β γ : Type} (bs : List β) (g : β → γ)
    (h : β → List γ) :
    (bs.flatMap fun b => g b :: h b).Perm (bs.map g ++ bs.flatMap h) := by
  induction bs with
  | nil => simp
  | cons b bs ih =>
    simp only [List.flatMap_cons, List.map_cons, List.cons_append]
    refine List.Perm.cons _ ?_
    exact (List.Perm.append_left (h b) ih).trans
      (List.perm_append_comm_assoc (h b) (bs.map g) (bs.flatMap h))

lemma flatMap_map_swap_perm {α β γ : Type} (as : List α) (bs : List β)
    (f : α → β → γ) :
    (as.flatMap fun a => bs.map (f a)).Perm
      (bs.flatMap fun b => as.map fun a => f a b) := by
  induction as with
  | nil => simp [List.nil_perm, List.flatMap_eq_nil_iff]
  | cons a as ih =>
    simp only [List.flatMap_cons]
    refine List.Perm.trans (List.Perm.append_left _ ih) ?_
    exact (flatMap_cons_perm bs (fun b => f a b)
      (fun b => as.map fun a' => f a' b)).symm

lemma flatMap_congr_of_mem {α β : Type} {l : List α} {f g : α → List β}
    (h : ∀ a ∈ l, f a = g a) : l.flatMap f = l.flatMap g := by
  induction l with
  | nil => rfl
  | cons a l ih =>
    simp only [List.flatMap_cons, h a (List.mem_cons_self _ _),
      ih fun a ha => h a (List.mem_cons_of_mem _ ha)]

lemma enumFrom_map_getD {γ : Type} (F : ℤ → Option ℚ → γ) :
    ∀ (years : List ℤ) (n : ℕ) (vs : List (Option ℚ)),
      n + years.length ≤ vs.length →
      ((List.enumFrom n years).map fun jy => F jy.2 (vs.getD jy.1 none)) =
        (years.zip (vs.drop n)).map fun p => F p.1 p.2 := by
  intro years
  induction years with
  | nil => intro n vs _; simp
  | cons y ys ih =>
    intro n vs hn
    have hlt : n < vs.length := by simp at hn; omega
    rw [List.enumFrom_cons, List.map_cons,
      List.drop_eq_getElem_cons hlt, List.zip_cons_cons, List.map_cons,
      List.getD_eq_getElem vs none hlt,
      ih (n + 1) vs (by simp at hn ⊢; omega)]

lemma zip_filterMap_length (m : Meta) :
    ∀ (years : List ℤ) (vs : List (Option ℚ)), vs.length = years.length →
      ((years.zip vs).filterMap fun p =>
        p.2.map fun v => (⟨m, p.1, v⟩ : LongObs)).length =
        vs.countP Option.isSome := by
  intro years
  induction years with
  | nil =>
    intro vs h
    rw [List.length_eq_zero.mp h]
    rfl
  | cons y ys ih =>
    intro vs h
    cases vs with
    | nil => simp at h
    | cons v vs' =>
      rw [List.zip_cons_cons, List.filterMap_cons, List.countP_cons]
      cases v with
      | none => simp [ih vs' (by simpa using h)]
      | some q => simp [ih vs' (by simpa using h)]

/-- C5: on a cleaned table whose rows all carry one cell per period column,
    `to_long_format` produces exactly one long row per non-missing cell (`M`
    rows in total), and the multiset of its `(dimensions, period, value)`
    observations equals the multiset of non-missing cells of the cleaned
    table — grouping the long rows back by `(dimensions, period)` therefore
    reconstructs the original cleaned values exactly. -/
theorem c5_to_long_roundtrip (years : List ℤ) (rows : List CleanedRow)
    (h : ∀ r ∈ rows, r.2.length = years.length) :
    (to_long_format years rows).length =
        (rows.map fun r => r.2.countP Option.isSome).sum ∧
      Multiset.ofList (to_long_format years rows) =
        Multiset.ofList (origObs years rows) := by
  have h1 : (melt years rows).Perm
      (rows.flatMap fun r => years.enum.map fun jy =>
        (r.1, jy.2, r.2.getD jy.1 none)) :=
    flatMap_map_swap_perm years.enum rows
      (fun jy r => (r.1, jy.2, r.2.getD jy.1 none))
  have h2 : (dropnaLong (melt years rows)).Perm
      (dropnaLong (rows.flatMap fun r => years.enum.map fun jy =>
        (r.1, jy.2, r.2.getD jy.1 none))) :=
    List.Perm.filterMap _ h1
  have h3 : dropnaLong (rows.flatMap fun r => years.enum.map fun jy =>
      (r.1, jy.2, r.2.getD jy.1 none)) = origObs years rows := by
    unfold dropnaLong origObs
    rw [List.filterMap_flatMap]
    refine flatMap_congr_of_mem fun r hr => ?_
    rw [List.enum_eq_enumFrom,
      enumFrom_map_getD (fun y ov => (r.1, y, ov)) years 0 r.2 (by rw [h r hr]; omega),
      List.drop_zero, List.filterMap_map]
    rfl
  have hperm : (dropnaLong (melt years rows)).Perm (origObs years rows) :=
    h3 ▸ h2
  have hsort : (to_long_format years rows).Perm (origObs years rows) :=
    (List.mergeSort_perm _ _).trans hperm
  constructor
  · rw [hsort.length_eq]
    unfold origObs
    rw [List.length_flatMap]
    exact congrArg List.sum (List.map_congr_left fun r hr =>
      zip_filterMap_length r.1 years r.2 (h r hr))
  · exact Multiset.coe_eq_coe.mpr hsort

/-- C5 witness on a 1 × 2 cleaned table with one present and one missing
    cell. -/
theorem c5_to_long_roundtrip_witness :
    (to_long_format [2020, 2021]
        [(⟨"A".toList, "TKM".toList, "IWW".toList, "BE".toList⟩,
          [some 10, none])]).length =
        ([(⟨"A".toList, "TKM".toList, "IWW".toList,
          "BE".toList⟩, [some 10, none])].map fun r : CleanedRow =>
            r.2.countP Option.isSome).sum ∧
      Multiset.ofList (to_long_format [2020, 2021]
        [(⟨"A".toList, "TKM".toList, "IWW".toList, "BE".toList⟩,
          [some 10, none])]) =
        Multiset.ofList (origObs [2020, 2021]
          [(⟨"A".toList, "TKM".toList, "IWW".toList, "BE".toList⟩,
            [some 10, none])]) :=
  c5_to_long_roundtrip [2020, 2021]
    [(⟨"A".toList, "TKM".toList, "IWW".toList, "BE".toList⟩, [some 10, none])]
    (by decide)

end DataInventory
